import Mathlib

/-!
Shallow embedding of the review/course aggregate-consistency subsystem of the
wheaton-course-rating repository.

Sources embedded:
- models/Review.ts (ReviewSchema, its post hooks, updateCourseRatings);
- models/Course.ts (the three aggregate fields averageRating,
  averageDifficulty, reviewCount);
- app/api/reviews/route.ts POST (review creation: difficultyText defaulting,
  duplicate check, validation-backed save);
- app/api/reviews/[id]/helpful/route.ts POST (helpful-vote toggle).

Modelling conventions: MongoDB ObjectIds are Lean String values; JavaScript
numbers are exact rationals (ℚ); `parseFloat(x.toFixed(1))` on a nonnegative
value is rounding to one decimal place with ties rounded up, modelled by
`round1`; the document store is an explicit `DB` state threaded through the
operations; fallible route handlers return the (possibly unchanged) state
together with an `Except ApiError` outcome.
-/

namespace CourseRating

/-- Course aggregate fields written by updateCourseRatings in models/Review.ts:
averageRating, averageDifficulty, reviewCount (models/Course.ts). -/
structure CourseAgg where
  averageRating : ℚ
  averageDifficulty : ℚ
  reviewCount : ℕ
deriving DecidableEq, Repr

/-- One Review document, after the schema setters (trim on semester and
professor) have been applied, as declared by ReviewSchema in models/Review.ts.
`difficultyText` is Option-valued because the field can be absent before
validation runs; `helpfulUsers` is a set of user ids ($addToSet semantics). -/
structure Review where
  id : String
  courseId : String
  userId : String
  rating : ℚ
  difficulty : ℚ
  difficultyText : Option String
  content : String
  tags : List String
  helpfulCount : ℤ
  helpfulUsers : Finset String
  semester : String
  professor : String
deriving DecidableEq

/-- The request body of POST /api/reviews, before schema defaults: the caller
supplies all identity and content fields; `id` stands for the ObjectId that
mongoose assigns to the new document at construction time. -/
structure ReviewInput where
  id : String
  courseId : String
  userId : String
  rating : ℚ
  difficulty : ℚ
  difficultyText : Option String
  content : String
  tags : List String
  semester : String
  professor : String
deriving DecidableEq

/-- Domain outcomes of the handlers: mongoose ValidationError (carrying the
offending field paths), the duplicate-review conflict (HTTP 400, message
"You have already reviewed this course"), and not-found. -/
inductive ApiError where
  | validation (fields : List String)
  | conflict
  | notFound
deriving DecidableEq, Repr

/-- Modelled from the spec: constants/tags (the predefined tag vocabulary
imported by models/Review.ts) is not part of the available sources; the spec
says only that tags are drawn from a fixed closed vocabulary with no free
text. An arbitrary fixed list stands in; no claim depends on its contents. -/
def predefinedTags : List String :=
  ["Great Professor", "Heavy Workload", "Participation Heavy",
   "Exam Heavy", "Project Based"]

/-- Rounding to one decimal place, as performed by
`parseFloat(value.toFixed(1))` in updateCourseRatings: for the nonnegative
values that arise there, toFixed rounds to the nearest multiple of 1/10 and
breaks exact ties upward, which is `round` on ℚ scaled by 10. -/
def round1 (q : ℚ) : ℚ := (round (q * 10) : ℤ) / 10

/-- Arithmetic mean of a list of rationals ($avg of the aggregation
pipeline). -/
def mean (l : List ℚ) : ℚ := l.sum / l.length

/-- Rating validator of ReviewSchema: min 1, max 5, and `v % 0.5 === 0`
(whole or half steps), i.e. 2·v is an integer. -/
def ratingOk (v : ℚ) : Bool :=
  decide (1 ≤ v) && decide (v ≤ 5) && ((2 * v).den == 1)

/-- Difficulty validator of ReviewSchema: min 1, max 5, Number.isInteger. -/
def difficultyOk (v : ℚ) : Bool :=
  decide (1 ≤ v) && decide (v ≤ 5) && (v.den == 1)

/-- DifficultyText rule of ReviewSchema: required, enum
['Easy', 'Moderate', 'Hard']. -/
def difficultyTextOk : Option String → Bool
  | none => false
  | some t => ["Easy", "Moderate", "Hard"].contains t

/-- Content rule of ReviewSchema: required with minlength 10. -/
def contentOk (c : String) : Bool := decide (10 ≤ c.length)

/-- Tags rule of ReviewSchema: every element drawn from predefinedTags. -/
def tagsOk (tags : List String) : Bool := tags.all (predefinedTags.contains ·)

/-- Required-String rule (semester, professor): the trimmed value must be
nonempty. -/
def requiredOk (s : String) : Bool := !(s == "")

/-- Field paths failing ReviewSchema validation for a candidate document, in
schema declaration order; mongoose reports every failing path in one
ValidationError. -/
def reviewErrors (r : Review) : List String :=
  (if ratingOk r.rating then [] else ["rating"]) ++
  (if difficultyOk r.difficulty then [] else ["difficulty"]) ++
  (if difficultyTextOk r.difficultyText then [] else ["difficultyText"]) ++
  (if contentOk r.content then [] else ["content"]) ++
  (if tagsOk r.tags then [] else ["tags"]) ++
  (if requiredOk r.semester then [] else ["semester"]) ++
  (if requiredOk r.professor then [] else ["professor"])

/-- The trim setter of mongoose String paths: drop leading and trailing
whitespace (String.trim, written structurally over the character list). -/
def trimString (s : String) : String :=
  String.mk (((s.data.dropWhile Char.isWhitespace).reverse.dropWhile
    Char.isWhitespace).reverse)

/-- Document construction `new Review(body)`: copies the body fields, applies
the trim setters, and fills the schema defaults helpfulCount = 0 and
helpfulUsers = []. -/
def toReview (b : ReviewInput) : Review :=
  { id := b.id
    courseId := b.courseId
    userId := b.userId
    rating := b.rating
    difficulty := b.difficulty
    difficultyText := b.difficultyText
    content := b.content
    tags := b.tags
    helpfulCount := 0
    helpfulUsers := ∅
    semester := trimString b.semester
    professor := trimString b.professor }

/-- Difficulty-to-text table of the POST /api/reviews handler:
difficulty ≤ 2 gives Easy, ≤ 4 gives Moderate, otherwise Hard. -/
def difficultyTextOf (d : ℚ) : String :=
  if d ≤ 2 then "Easy" else if d ≤ 4 then "Moderate" else "Hard"

/-- JavaScript truthiness test `!body.difficultyText`: true for an absent
field and for the empty string. -/
def falsyText : Option String → Bool
  | none => true
  | some s => s == ""

/-- DifficultyText defaulting step of POST /api/reviews:
`if (body.difficulty && !body.difficultyText)` set the derived text. -/
def setDifficultyText (b : ReviewInput) : ReviewInput :=
  if b.difficulty ≠ 0 ∧ falsyText b.difficultyText then
    { b with difficultyText := some (difficultyTextOf b.difficulty) }
  else b

/-- Document-store state: the Review collection and the Course collection,
the latter restricted to its three aggregate fields (the only course fields
the embedded code writes). -/
structure DB where
  reviews : List Review
  courses : List (String × CourseAgg)
deriving DecidableEq

/-- Course lookup by id (Course.findById restricted to the aggregate
fields). -/
def getCourse (db : DB) (cid : String) : Option CourseAgg :=
  (db.courses.find? (fun kv => kv.1 == cid)).map (fun kv => kv.2)

/-- Aggregation stage of updateCourseRatings in models/Review.ts: $match on
courseId, then $avg over rating and difficulty and $sum 1; when the match is
empty the pipeline returns no row and the three fields are reset to 0,
otherwise the averages are written through `parseFloat(toFixed(1))`. The
result ignores any previous aggregate values: it is a full recomputation. -/
def updateCourseRatings (reviews : List Review) (cid : String) : CourseAgg :=
  let matching := reviews.filter (fun r => r.courseId == cid)
  if matching.isEmpty then
    { averageRating := 0, averageDifficulty := 0, reviewCount := 0 }
  else
    { averageRating := round1 ((matching.map Review.rating).sum / matching.length)
      averageDifficulty := round1 ((matching.map Review.difficulty).sum / matching.length)
      reviewCount := matching.length }

/-- Course.findByIdAndUpdate with the three aggregate fields: replaces the
aggregate record of every entry whose key is `cid` (ids are unique in a real
collection); a missing course is left untouched. -/
def setCourseAgg (cid : String) (a : CourseAgg) (l : List (String × CourseAgg)) :
    List (String × CourseAgg) :=
  l.map (fun kv => if kv.1 == cid then (kv.1, a) else kv)

/-- The whole updateCourseRatings call as a state transformer: recompute the
aggregates for `cid` from the current review population and write them into
the course collection. -/
def recompute (db : DB) (cid : String) : DB :=
  { db with courses := setCourseAgg cid (updateCourseRatings db.reviews cid) db.courses }

/-- Replace the first list element satisfying `p` by its image under `g`
(mongoose findOneAndUpdate touches a single matching document). -/
def updateFirst (p : α → Bool) (g : α → α) : List α → List α
  | [] => []
  | x :: xs => if p x then g x :: xs else x :: updateFirst p g xs

/-- A committed Review mutation: a saved new document, a findOneAndUpdate by
id applying an arbitrary field update `g`, or a findOneAndDelete by id. -/
inductive Mutation where
  | create (r : Review)
  | update (rid : String) (g : Review → Review)
  | delete (rid : String)

/-- CourseId that the post hook of the mutation passes to
updateCourseRatings: for save it is the saved document's courseId; for
findOneAndUpdate and findOneAndDelete it is the courseId of the matched
document (the hooks run only `if (doc)`). -/
def hookTarget (db : DB) : Mutation → Option String
  | .create r => some r.courseId
  | .update rid _ => (db.reviews.find? (fun r => r.id == rid)).map Review.courseId
  | .delete rid => (db.reviews.find? (fun r => r.id == rid)).map Review.courseId

/-- Commit a Review mutation and run the post hook of models/Review.ts:
post save, post findOneAndUpdate and post findOneAndDelete all call
updateCourseRatings on the affected courseId; when update or delete match no
document, nothing happens and no hook fires. -/
def applyMutation (db : DB) (m : Mutation) : DB :=
  match m with
  | .create r => recompute { db with reviews := db.reviews ++ [r] } r.courseId
  | .update rid g =>
      match db.reviews.find? (fun r => r.id == rid) with
      | none => db
      | some doc =>
          recompute { db with reviews := updateFirst (fun r => r.id == rid) g db.reviews }
            doc.courseId
  | .delete rid =>
      match db.reviews.find? (fun r => r.id == rid) with
      | none => db
      | some doc =>
          recompute { db with reviews := db.reviews.eraseP (fun r => r.id == rid) }
            doc.courseId

/-- Duplicate check of POST /api/reviews:
`Review.findOne({userId, courseId})` is some document. -/
def hasReviewed (db : DB) (b : ReviewInput) : Bool :=
  db.reviews.any (fun r => r.userId == b.userId && r.courseId == b.courseId)

/-- Document save `newReview.save()`: mongoose validates the document against
ReviewSchema; on failure nothing is inserted and a ValidationError naming the
failing paths is thrown; on success the document is inserted and the post
save hook recomputes the course aggregates. -/
def saveReview (db : DB) (r : Review) : DB × Except ApiError Review :=
  if (reviewErrors r).isEmpty then
    (applyMutation db (.create r), Except.ok r)
  else
    (db, Except.error (ApiError.validation (reviewErrors r)))

/-- POST /api/reviews handler: difficultyText defaulting, then the duplicate
check (early 400 return), then construction and save. Every error path
returns before any write, so the state component is unchanged there. -/
def createReview (db : DB) (input : ReviewInput) : DB × Except ApiError Review :=
  let body := setDifficultyText input
  if hasReviewed db body then
    (db, Except.error ApiError.conflict)
  else
    saveReview db (toReview body)

/-- Hexadecimal digit test for ObjectId strings. -/
def isHexChar (c : Char) : Bool :=
  c.isDigit || (97 ≤ c.toNat && c.toNat ≤ 102) || (65 ≤ c.toNat && c.toNat ≤ 70)

/-- Mongoose ObjectId.isValid on a string: a 24-character hex string, or any
12-character string (interpreted as 12 raw bytes). -/
def isValidObjectId (s : String) : Bool :=
  s.length == 12 || (s.length == 24 && s.toList.all isHexChar)

/-- The atomic store write of the helpful route: findByIdAndUpdate with
either `$pull helpfulUsers / $inc helpfulCount -1` (when the handler read
`hasMarked` as true) or `$addToSet helpfulUsers / $inc helpfulCount +1`
(when it read false). The membership value used is the one observed at read
time, passed in as `hasMarked`. -/
def applyHelpfulWrite (u : String) (hasMarked : Bool) (r : Review) : Review :=
  if hasMarked then
    { r with helpfulUsers := r.helpfulUsers.erase u,
             helpfulCount := r.helpfulCount - 1 }
  else
    { r with helpfulUsers := insert u r.helpfulUsers,
             helpfulCount := r.helpfulCount + 1 }

/-- The sequential helpful-vote toggle on one review document: read the
current membership of `u`, then apply the corresponding atomic write. -/
def toggleHelpful (u : String) (r : Review) : Review :=
  applyHelpfulWrite u (decide (u ∈ r.helpfulUsers)) r

/-- POST /api/reviews/[id]/helpful handler: validate both ids (400 on
failure), findById (404 when absent), then toggle. The findByIdAndUpdate of
the success path triggers the post findOneAndUpdate hook, which recomputes
the course aggregates of the review's course. Returns the `helpful` flag of
the JSON response. -/
def helpfulRoute (db : DB) (reviewId userId : String) : DB × Except ApiError Bool :=
  if isValidObjectId reviewId && isValidObjectId userId then
    match db.reviews.find? (fun r => r.id == reviewId) with
    | none => (db, Except.error ApiError.notFound)
    | some review =>
        let hasMarked := decide (userId ∈ review.helpfulUsers)
        let newReviews :=
          updateFirst (fun r => r.id == reviewId) (applyHelpfulWrite userId hasMarked)
            db.reviews
        let db1 : DB := { db with reviews := newReviews }
        (recompute db1 review.courseId, Except.ok (!hasMarked))
  else
    (db, Except.error (ApiError.validation ["id"]))

/-- One interleaving of two helpful-vote toggle executions A (user `a`) and
B (user `b`) on the same review document, each execution being its read step
followed by its atomic write step. Up to the order of adjacent reads (which
do not change state) these are the six schedules compatible with each read
preceding its own write. -/
inductive Interleaving where
  | serialAB
  | serialBA
  | readsABwriteAB
  | readsABwriteBA
  | readsBAwriteAB
  | readsBAwriteBA

/-- Run two toggle executions under the given interleaving: in the serial
schedules the second execution reads the state left by the first; in the
others both executions read the initial state and the writes land in the
indicated order. -/
def runToggles (i : Interleaving) (a b : String) (r : Review) : Review :=
  match i with
  | .serialAB => toggleHelpful b (toggleHelpful a r)
  | .serialBA => toggleHelpful a (toggleHelpful b r)
  | .readsABwriteAB | .readsBAwriteAB =>
      applyHelpfulWrite b (decide (b ∈ r.helpfulUsers))
        (applyHelpfulWrite a (decide (a ∈ r.helpfulUsers)) r)
  | .readsABwriteBA | .readsBAwriteBA =>
      applyHelpfulWrite a (decide (a ∈ r.helpfulUsers))
        (applyHelpfulWrite b (decide (b ∈ r.helpfulUsers)) r)

/-! ### Sample data used by witnesses and counterexamples -/

/-- A well-formed concrete review document. -/
def sampleReview : Review :=
  { id := "aaaaaaaaaaaaaaaaaaaaaaaa"
    courseId := "cccccccccccccccccccccccc"
    userId := "111111111111111111111111"
    rating := 4
    difficulty := 3
    difficultyText := some "Moderate"
    content := "Great class overall!"
    tags := []
    helpfulCount := 0
    helpfulUsers := ∅
    semester := "Fall 2024"
    professor := "Smith" }

/-- A store holding one course and no reviews. -/
def sampleDB : DB :=
  { reviews := [], courses := [("cccccccccccccccccccccccc", ⟨0, 0, 0⟩)] }

/-- A well-formed create request matching sampleReview, with difficultyText
left for the handler to derive. -/
def sampleInput : ReviewInput :=
  { id := "aaaaaaaaaaaaaaaaaaaaaaaa"
    courseId := "cccccccccccccccccccccccc"
    userId := "111111111111111111111111"
    rating := 4
    difficulty := 3
    difficultyText := none
    content := "Great class overall!"
    tags := []
    semester := "Fall 2024"
    professor := "Smith" }

/-! ### Helper lemmas -/

/-- Both recompute paths leave the review collection untouched. -/
lemma recompute_reviews (db : DB) (cid : String) :
    (recompute db cid).reviews = db.reviews := rfl

/-- Course lookup ignores the review collection. -/
lemma getCourse_reviews_irrel (db : DB) (rs : List Review) (cid : String) :
    getCourse { db with reviews := rs } cid = getCourse db cid := rfl

/-- Writing an aggregate for a present key makes it the value that lookup
returns afterwards. -/
lemma find_setCourseAgg (cid : String) (a : CourseAgg)
    (l : List (String × CourseAgg))
    (h : (l.find? (fun kv => kv.1 == cid)).isSome = true) :
    ((setCourseAgg cid a l).find? (fun kv => kv.1 == cid)).map (fun kv => kv.2)
      = some a := by
  induction l with
  | nil => simp at h
  | cons kv t ih =>
      obtain ⟨k, v⟩ := kv
      simp only [setCourseAgg, List.map_cons] at *
      by_cases hk : (k == cid) = true
      · rw [if_pos hk, List.find?_cons_of_pos _ (by simpa using hk)]
        simp
      · rw [if_neg hk, List.find?_cons_of_neg _ (by simpa using hk)]
        rw [List.find?_cons_of_neg _ (by simpa using hk)] at h
        exact ih h

/-- After recompute, looking up the target course returns exactly the
freshly computed aggregates. -/
lemma getCourse_recompute (db : DB) (cid : String)
    (h : (getCourse db cid).isSome = true) :
    getCourse (recompute db cid) cid = some (updateCourseRatings db.reviews cid) := by
  have h2 : (db.courses.find? (fun kv => kv.1 == cid)).isSome = true := by
    simpa [getCourse] using h
  simpa [recompute, getCourse] using
    find_setCourseAgg cid (updateCourseRatings db.reviews cid) db.courses h2

/-- The aggregate record recompute produces, characterised against the
review population of the target course. -/
lemma recompute_spec (db : DB) (cid : String)
    (h : (getCourse db cid).isSome = true) :
    ∃ agg, getCourse (recompute db cid) cid = some agg ∧
      (db.reviews.filter (fun r => r.courseId == cid) = [] →
        agg = ⟨0, 0, 0⟩) ∧
      (db.reviews.filter (fun r => r.courseId == cid) ≠ [] →
        agg.averageRating =
          round1 (mean ((db.reviews.filter (fun r => r.courseId == cid)).map Review.rating)) ∧
        agg.averageDifficulty =
          round1 (mean ((db.reviews.filter (fun r => r.courseId == cid)).map Review.difficulty)) ∧
        agg.reviewCount = (db.reviews.filter (fun r => r.courseId == cid)).length) := by
  refine ⟨updateCourseRatings db.reviews cid, getCourse_recompute db cid h, ?_, ?_⟩
  · intro hpop
    simp [updateCourseRatings, hpop]
  · intro hpop
    have hne : ((db.reviews.filter (fun r => r.courseId == cid)).isEmpty) = false := by
      simpa [List.isEmpty_iff] using hpop
    simp [updateCourseRatings, hne, mean]

/-- Membership of a user other than `u` is untouched by the atomic helpful
write of `u`. -/
lemma applyHelpfulWrite_mem (a u : String) (m : Bool) (r : Review)
    (h : a ≠ u) :
    a ∈ (applyHelpfulWrite u m r).helpfulUsers ↔ a ∈ r.helpfulUsers := by
  cases m <;> simp [applyHelpfulWrite, h]

/-- The sequential toggle preserves the helpfulCount invariant. -/
lemma toggleHelpful_inv (u : String) (r : Review)
    (h : r.helpfulCount = r.helpfulUsers.card) :
    (toggleHelpful u r).helpfulCount = (toggleHelpful u r).helpfulUsers.card := by
  by_cases hm : u ∈ r.helpfulUsers
  · have hpos : 1 ≤ r.helpfulUsers.card := Finset.card_pos.mpr ⟨u, hm⟩
    simp [toggleHelpful, applyHelpfulWrite, hm, Finset.card_erase_of_mem hm]
    omega
  · simp [toggleHelpful, applyHelpfulWrite, hm, Finset.card_insert_of_not_mem hm]
    omega

/-- DifficultyText defaulting does not touch the requesting user id. -/
lemma setDifficultyText_userId (b : ReviewInput) :
    (setDifficultyText b).userId = b.userId := by
  unfold setDifficultyText
  split <;> rfl

/-- DifficultyText defaulting does not touch the target course id. -/
lemma setDifficultyText_courseId (b : ReviewInput) :
    (setDifficultyText b).courseId = b.courseId := by
  unfold setDifficultyText
  split <;> rfl

/-- Successful create: no duplicate and no validation failure give the
committed create with its hook, together with the saved document. -/
lemma createReview_ok (db : DB) (input : ReviewInput)
    (hdup : hasReviewed db (setDifficultyText input) = false)
    (herr : reviewErrors (toReview (setDifficultyText input)) = []) :
    createReview db input =
      (applyMutation db (Mutation.create (toReview (setDifficultyText input))),
       Except.ok (toReview (setDifficultyText input))) := by
  unfold createReview saveReview
  simp [hdup, herr]

/-- DifficultyText defaulting only ever touches the difficultyText field. -/
lemma toReview_setDT_fields (b : ReviewInput) :
    (toReview (setDifficultyText b)).rating = b.rating ∧
    (toReview (setDifficultyText b)).difficulty = b.difficulty ∧
    (toReview (setDifficultyText b)).content = b.content ∧
    (toReview (setDifficultyText b)).tags = b.tags := by
  unfold setDifficultyText toReview
  split <;> exact ⟨rfl, rfl, rfl, rfl⟩

/-- A guarded singleton that comes out empty has a true guard. -/
lemma guard_nil_true {c : Bool} {s : String}
    (h : (if c = true then ([] : List String) else [s]) = []) : c = true := by
  cases c
  · simp at h
  · rfl

/-- An empty validation report means every validator passed. -/
lemma reviewErrors_nil (r : Review) (h : reviewErrors r = []) :
    ratingOk r.rating = true ∧ difficultyOk r.difficulty = true ∧
    contentOk r.content = true ∧ tagsOk r.tags = true := by
  rw [reviewErrors] at h
  repeat rw [List.append_eq_nil] at h
  obtain ⟨⟨⟨⟨⟨⟨h1, h2⟩, h3⟩, h4⟩, h5⟩, h6⟩, h7⟩ := h
  exact ⟨guard_nil_true h1, guard_nil_true h2, guard_nil_true h4, guard_nil_true h5⟩

/-- Each failing validator contributes its field path to the report. -/
lemma reviewErrors_mem (r : Review) :
    (ratingOk r.rating = false → "rating" ∈ reviewErrors r) ∧
    (difficultyOk r.difficulty = false → "difficulty" ∈ reviewErrors r) ∧
    (contentOk r.content = false → "content" ∈ reviewErrors r) ∧
    (tagsOk r.tags = false → "tags" ∈ reviewErrors r) := by
  refine ⟨fun h => ?_, fun h => ?_, fun h => ?_, fun h => ?_⟩ <;>
    simp [reviewErrors, h]

/-- Overwriting a course aggregate twice with the same value is the same as
overwriting it once. -/
lemma setCourseAgg_idem (cid : String) (a : CourseAgg)
    (l : List (String × CourseAgg)) :
    setCourseAgg cid a (setCourseAgg cid a l) = setCourseAgg cid a l := by
  unfold setCourseAgg
  rw [List.map_map]
  apply List.map_congr_left
  intro kv _
  by_cases hk : (kv.1 == cid) = true
  · simp [Function.comp, hk]
  · simp [Function.comp, hk]

/-- Toggling twice by the same user is the identity on the review
document. -/
lemma toggleHelpful_twice (u : String) (r : Review) :
    toggleHelpful u (toggleHelpful u r) = r := by
  by_cases hm : u ∈ r.helpfulUsers
  · have h1 : toggleHelpful u r =
        { r with helpfulUsers := r.helpfulUsers.erase u,
                 helpfulCount := r.helpfulCount - 1 } := by
      simp [toggleHelpful, applyHelpfulWrite, hm]
    rw [h1]
    have hm2 : u ∉ r.helpfulUsers.erase u := Finset.not_mem_erase u _
    simp [toggleHelpful, applyHelpfulWrite, hm2, Finset.insert_erase hm]
  · have h1 : toggleHelpful u r =
        { r with helpfulUsers := insert u r.helpfulUsers,
                 helpfulCount := r.helpfulCount + 1 } := by
      simp [toggleHelpful, applyHelpfulWrite, hm]
    rw [h1]
    have hm2 : u ∈ insert u r.helpfulUsers := Finset.mem_insert_self u _
    simp [toggleHelpful, applyHelpfulWrite, hm2, Finset.erase_insert hm]

/-- When the two acting users differ, the interleaved execution in which
both reads precede both writes equals the serial execution in write
order: the second write's direction only depends on that user's own
membership, which the first write does not touch. -/
lemma readsFirst_serializes (a b : String) (r : Review) (hab : a ≠ b) :
    applyHelpfulWrite b (decide (b ∈ r.helpfulUsers))
      (applyHelpfulWrite a (decide (a ∈ r.helpfulUsers)) r)
      = toggleHelpful b (toggleHelpful a r) := by
  have hmem := applyHelpfulWrite_mem b a (decide (a ∈ r.helpfulUsers)) r
    (Ne.symm hab)
  unfold toggleHelpful
  congr 1
  exact decide_eq_decide.mpr hmem.symm

/-! ### Claim theorems -/

/-- C1: after every committed create, update, or delete of a Review, the
hook-driven recomputation sets the target course's aggregate fields from the
full current review population for that courseId: if the population is
empty, averageRating, averageDifficulty and reviewCount are all 0; otherwise
averageRating and averageDifficulty are the arithmetic means of the ratings
and difficulties rounded to one decimal place, and reviewCount is the number
of reviews. -/
theorem aggregates_recomputed_from_population (db : DB) (m : Mutation)
    (cid : String) (hhook : hookTarget db m = some cid)
    (hc : (getCourse db cid).isSome = true) :
    ∃ agg, getCourse (applyMutation db m) cid = some agg ∧
      ((applyMutation db m).reviews.filter (fun r => r.courseId == cid) = [] →
        agg = ⟨0, 0, 0⟩) ∧
      ((applyMutation db m).reviews.filter (fun r => r.courseId == cid) ≠ [] →
        agg.averageRating = round1 (mean
          (((applyMutation db m).reviews.filter (fun r => r.courseId == cid)).map Review.rating)) ∧
        agg.averageDifficulty = round1 (mean
          (((applyMutation db m).reviews.filter (fun r => r.courseId == cid)).map Review.difficulty)) ∧
        agg.reviewCount =
          ((applyMutation db m).reviews.filter (fun r => r.courseId == cid)).length) := by
  cases m with
  | create r =>
      have hcid : r.courseId = cid := by
        simpa [hookTarget] using hhook
      subst hcid
      have h2 : (getCourse { db with reviews := db.reviews ++ [r] } r.courseId).isSome = true := hc
      simpa [applyMutation, recompute_reviews] using
        recompute_spec { db with reviews := db.reviews ++ [r] } r.courseId h2
  | update rid g =>
      cases hfind : db.reviews.find? (fun x => x.id == rid) with
      | none => rw [hookTarget, hfind] at hhook; simp at hhook
      | some doc =>
          have hcid : doc.courseId = cid := by
            rw [hookTarget, hfind] at hhook
            simpa using hhook
          have h2 : (getCourse
              { db with reviews := updateFirst (fun r => r.id == rid) g db.reviews } cid).isSome
              = true := hc
          have hspec := recompute_spec
            { db with reviews := updateFirst (fun r => r.id == rid) g db.reviews } cid h2
          simpa [applyMutation, hfind, hcid, recompute_reviews] using hspec
  | delete rid =>
      cases hfind : db.reviews.find? (fun x => x.id == rid) with
      | none => rw [hookTarget, hfind] at hhook; simp at hhook
      | some doc =>
          have hcid : doc.courseId = cid := by
            rw [hookTarget, hfind] at hhook
            simpa using hhook
          have h2 : (getCourse
              { db with reviews := db.reviews.eraseP (fun r => r.id == rid) } cid).isSome
              = true := hc
          have hspec := recompute_spec
            { db with reviews := db.reviews.eraseP (fun r => r.id == rid) } cid h2
          simpa [applyMutation, hfind, hcid, recompute_reviews] using hspec

/-- Witness for C1: a concrete committed create on a store holding the
course, with both hypotheses discharged by evaluation. -/
theorem aggregates_recomputed_from_population_witness :
    hookTarget sampleDB (Mutation.create sampleReview)
        = some "cccccccccccccccccccccccc" ∧
    (getCourse sampleDB "cccccccccccccccccccccccc").isSome = true ∧
    (∃ agg, getCourse (applyMutation sampleDB (Mutation.create sampleReview))
        "cccccccccccccccccccccccc" = some agg ∧
      ((applyMutation sampleDB (Mutation.create sampleReview)).reviews.filter
          (fun r => r.courseId == "cccccccccccccccccccccccc") = [] →
        agg = ⟨0, 0, 0⟩) ∧
      ((applyMutation sampleDB (Mutation.create sampleReview)).reviews.filter
          (fun r => r.courseId == "cccccccccccccccccccccccc") ≠ [] →
        agg.averageRating = round1 (mean
          (((applyMutation sampleDB (Mutation.create sampleReview)).reviews.filter
            (fun r => r.courseId == "cccccccccccccccccccccccc")).map Review.rating)) ∧
        agg.averageDifficulty = round1 (mean
          (((applyMutation sampleDB (Mutation.create sampleReview)).reviews.filter
            (fun r => r.courseId == "cccccccccccccccccccccccc")).map Review.difficulty)) ∧
        agg.reviewCount =
          ((applyMutation sampleDB (Mutation.create sampleReview)).reviews.filter
            (fun r => r.courseId == "cccccccccccccccccccccccc")).length)) :=
  ⟨rfl, rfl,
    aggregates_recomputed_from_population sampleDB (Mutation.create sampleReview)
      "cccccccccccccccccccccccc" rfl rfl⟩

/-- C2: a create request whose (userId, courseId) pair already has a stored
review fails with the conflict error ("You have already reviewed this
course") and leaves no partial state: the returned store is exactly the
store before the attempt, so no review document is added and the course
aggregates are unchanged. -/
theorem duplicate_review_conflict_no_partial_state (db : DB)
    (input : ReviewInput)
    (hdup : ∃ r ∈ db.reviews,
      r.userId = input.userId ∧ r.courseId = input.courseId) :
    createReview db input = (db, Except.error ApiError.conflict) := by
  obtain ⟨r, hr, hu, hc⟩ := hdup
  have hany : hasReviewed db (setDifficultyText input) = true := by
    rw [hasReviewed, List.any_eq_true]
    refine ⟨r, hr, ?_⟩
    simp [setDifficultyText_userId, setDifficultyText_courseId, hu, hc]
  simp [createReview, hany]

/-- Witness for C2: the sample user already reviewed the sample course;
the duplicate attempt returns conflict with the store unchanged. -/
theorem duplicate_review_conflict_no_partial_state_witness :
    (∃ r ∈ (DB.mk [sampleReview] sampleDB.courses).reviews,
      r.userId = sampleInput.userId ∧ r.courseId = sampleInput.courseId) ∧
    createReview (DB.mk [sampleReview] sampleDB.courses) sampleInput
      = (DB.mk [sampleReview] sampleDB.courses, Except.error ApiError.conflict) :=
  ⟨⟨sampleReview, by simp, rfl, rfl⟩,
    duplicate_review_conflict_no_partial_state _ _ ⟨sampleReview, by simp, rfl, rfl⟩⟩

/-- C3: the helpful toggle flips the acting user's membership in the
review's helpfulUsers set — inserting and incrementing by one when absent,
erasing and decrementing by one when present — and the invariant
helpfulCount = |helpfulUsers| holds immediately after the operation and
after any sequence of toggles, provided it held before. -/
theorem helpful_toggle_flips_membership_and_keeps_invariant (r : Review)
    (u : String) (h : r.helpfulCount = r.helpfulUsers.card) :
    (u ∉ r.helpfulUsers →
      (toggleHelpful u r).helpfulUsers = insert u r.helpfulUsers ∧
      (toggleHelpful u r).helpfulCount = r.helpfulCount + 1) ∧
    (u ∈ r.helpfulUsers →
      (toggleHelpful u r).helpfulUsers = r.helpfulUsers.erase u ∧
      (toggleHelpful u r).helpfulCount = r.helpfulCount - 1) ∧
    (toggleHelpful u r).helpfulCount = (toggleHelpful u r).helpfulUsers.card ∧
    (∀ us : List String,
      (us.foldl (fun s v => toggleHelpful v s) r).helpfulCount
        = ((us.foldl (fun s v => toggleHelpful v s) r).helpfulUsers.card : ℤ)) := by
  have fold_inv : ∀ (us : List String) (s : Review),
      s.helpfulCount = s.helpfulUsers.card →
      (us.foldl (fun acc v => toggleHelpful v acc) s).helpfulCount
        = ((us.foldl (fun acc v => toggleHelpful v acc) s).helpfulUsers.card : ℤ) := by
    intro us
    induction us with
    | nil => intro s hs; simpa using hs
    | cons v t ih =>
        intro s hs
        simpa [List.foldl_cons] using ih (toggleHelpful v s) (toggleHelpful_inv v s hs)
  refine ⟨?_, ?_, toggleHelpful_inv u r h, fun us => fold_inv us r h⟩
  · intro hm
    constructor <;> simp [toggleHelpful, applyHelpfulWrite, hm]
  · intro hm
    constructor <;> simp [toggleHelpful, applyHelpfulWrite, hm]

/-- Witness for C3: a fresh review with an empty helpful set satisfies the
invariant, and the toggle facts hold there concretely. -/
theorem helpful_toggle_flips_membership_and_keeps_invariant_witness :
    sampleReview.helpfulCount = sampleReview.helpfulUsers.card ∧
    (("u" : String) ∉ sampleReview.helpfulUsers →
      (toggleHelpful "u" sampleReview).helpfulUsers = insert "u" sampleReview.helpfulUsers ∧
      (toggleHelpful "u" sampleReview).helpfulCount = sampleReview.helpfulCount + 1) ∧
    (("u" : String) ∈ sampleReview.helpfulUsers →
      (toggleHelpful "u" sampleReview).helpfulUsers = sampleReview.helpfulUsers.erase "u" ∧
      (toggleHelpful "u" sampleReview).helpfulCount = sampleReview.helpfulCount - 1) ∧
    (toggleHelpful "u" sampleReview).helpfulCount
      = (toggleHelpful "u" sampleReview).helpfulUsers.card ∧
    (∀ us : List String,
      (us.foldl (fun s v => toggleHelpful v s) sampleReview).helpfulCount
        = ((us.foldl (fun s v => toggleHelpful v s) sampleReview).helpfulUsers.card : ℤ)) :=
  ⟨rfl, helpful_toggle_flips_membership_and_keeps_invariant sampleReview "u" rfl⟩

/-- C4: toggling twice in immediate succession by the same user returns the
review's helpfulUsers set and helpfulCount exactly to their values before
the first toggle. -/
theorem helpful_toggle_twice_restores (u : String) (r : Review) :
    (toggleHelpful u (toggleHelpful u r)).helpfulUsers = r.helpfulUsers ∧
    (toggleHelpful u (toggleHelpful u r)).helpfulCount = r.helpfulCount := by
  rw [toggleHelpful_twice]
  exact ⟨rfl, rfl⟩

/-- C5 counterexample: a create request supplying difficulty 1 together with
its own difficultyText "Hard" is accepted, and the stored review keeps the
caller's text, which disagrees with the derivation from the difficulty
("Easy"): the handler derives the text only when the caller omits it. -/
theorem difficultyText_from_caller_counterexample :
    (createReview sampleDB
        { sampleInput with difficulty := 1, difficultyText := some "Hard" }).2
      = Except.ok (toReview
          { sampleInput with difficulty := 1, difficultyText := some "Hard" }) ∧
    ((createReview sampleDB
        { sampleInput with difficulty := 1, difficultyText := some "Hard" }).1.reviews.map
      Review.difficultyText) = [some "Hard"] ∧
    difficultyTextOf (1 : ℚ) = "Easy" := by
  have hbody : setDifficultyText
      { sampleInput with difficulty := 1, difficultyText := some "Hard" }
      = { sampleInput with difficulty := 1, difficultyText := some "Hard" } := by
    simp [setDifficultyText, falsyText]
  have h1 : ratingOk (4 : ℚ) = true := by norm_num [ratingOk]
  have h2 : difficultyOk (1 : ℚ) = true := by norm_num [difficultyOk]
  have hc : contentOk "Great class overall!" = true := rfl
  have ht : tagsOk ([] : List String) = true := rfl
  have hdt : difficultyTextOk (some "Hard") = true := rfl
  have hsem : requiredOk (trimString "Fall 2024") = true := rfl
  have hprof : requiredOk (trimString "Smith") = true := rfl
  have herr : reviewErrors (toReview
      { sampleInput with difficulty := 1, difficultyText := some "Hard" }) = [] := by
    simp [reviewErrors, toReview, sampleInput, h1, h2, hc, ht, hdt, hsem, hprof]
  have hcreate := createReview_ok sampleDB
    { sampleInput with difficulty := 1, difficultyText := some "Hard" }
    (by rw [hbody]; rfl) (by rw [hbody]; exact herr)
  rw [hbody] at hcreate
  refine ⟨by rw [hcreate], by rw [hcreate]; rfl, rfl⟩

/-- C5 amended: difficultyText is derived from the numeric difficulty only
when the caller omits the field or supplies the empty string: every
accepted create request with such a falsy difficultyText stores the
deterministic derivation from its difficulty. A caller-supplied non-empty
difficultyText is stored as given, subject only to the enum validation, and
may disagree with the difficulty. -/
theorem difficultyText_derived_when_omitted (db : DB) (input : ReviewInput)
    (hfalsy : falsyText input.difficultyText = true) (db2 : DB) (r : Review)
    (hok : createReview db input = (db2, Except.ok r)) :
    r.difficultyText = some (difficultyTextOf input.difficulty) := by
  unfold createReview at hok
  by_cases hdup : hasReviewed db (setDifficultyText input) = true
  · rw [if_pos hdup] at hok
    simp at hok
  · rw [if_neg hdup] at hok
    unfold saveReview at hok
    by_cases herr :
        (reviewErrors (toReview (setDifficultyText input))).isEmpty = true
    · rw [if_pos herr] at hok
      have hr : toReview (setDifficultyText input) = r := by
        have h2 := congrArg Prod.snd hok
        simpa using h2
      by_cases hd : input.difficulty = 0
      · exfalso
        have hbody : setDifficultyText input = input := by
          unfold setDifficultyText
          rw [if_neg]
          simp [hd]
        have htext : difficultyTextOk (toReview input).difficultyText = false := by
          have hproj : (toReview input).difficultyText = input.difficultyText := rfl
          rw [hproj]
          cases hopt : input.difficultyText with
          | none => rfl
          | some s =>
              rw [hopt] at hfalsy
              have hs : s = "" := by simpa [falsyText] using hfalsy
              subst hs
              rfl
        have hmem : "difficultyText" ∈ reviewErrors (toReview input) := by
          simp [reviewErrors, htext]
        rw [hbody] at herr
        rw [List.isEmpty_iff] at herr
        rw [herr] at hmem
        simp at hmem
      · have hbody : (setDifficultyText input).difficultyText
            = some (difficultyTextOf input.difficulty) := by
          unfold setDifficultyText
          rw [if_pos ⟨hd, hfalsy⟩]
        rw [← hr]
        exact hbody
    · rw [if_neg herr] at hok
      simp at hok

/-- Witness for C5 amended: the sample request omits difficultyText and is
accepted; the stored text is the derivation from difficulty 3. -/
theorem difficultyText_derived_when_omitted_witness :
    falsyText sampleInput.difficultyText = true ∧
    (toReview (setDifficultyText sampleInput)).difficultyText
      = some (difficultyTextOf sampleInput.difficulty) := by
  have hbody : setDifficultyText sampleInput
      = { sampleInput with
          difficultyText := some (difficultyTextOf sampleInput.difficulty) } := by
    unfold setDifficultyText
    rw [if_pos]
    exact ⟨by norm_num [sampleInput], rfl⟩
  have hmod : difficultyTextOf (3 : ℚ) = "Moderate" := by
    norm_num [difficultyTextOf]
  have h1 : ratingOk (4 : ℚ) = true := by norm_num [ratingOk]
  have h2 : difficultyOk (3 : ℚ) = true := by norm_num [difficultyOk]
  have hc : contentOk "Great class overall!" = true := rfl
  have ht : tagsOk ([] : List String) = true := rfl
  have hdt : difficultyTextOk (some "Moderate") = true := rfl
  have hsem : requiredOk (trimString "Fall 2024") = true := rfl
  have hprof : requiredOk (trimString "Smith") = true := rfl
  have herr : reviewErrors (toReview (setDifficultyText sampleInput)) = [] := by
    rw [hbody]
    simp [reviewErrors, toReview, sampleInput, hmod, h1, h2, hc, ht, hdt, hsem, hprof]
  have hcreate := createReview_ok sampleDB sampleInput rfl herr
  exact ⟨rfl, difficultyText_derived_when_omitted sampleDB sampleInput rfl _ _ hcreate⟩

/-- C6: the difficulty-text derivation is a pure deterministic function of
the integer difficulty: for every difficulty in [1,5], a value at most 2
gives "Easy", a value between 3 and 4 gives "Moderate", and 5 gives
"Hard". -/
theorem difficultyText_table (d : ℚ) (hden : d.den = 1) (h1 : 1 ≤ d)
    (h5 : d ≤ 5) :
    (d ≤ 2 → difficultyTextOf d = "Easy") ∧
    (3 ≤ d → d ≤ 4 → difficultyTextOf d = "Moderate") ∧
    (d = 5 → difficultyTextOf d = "Hard") := by
  refine ⟨fun h2 => ?_, fun h3 h4 => ?_, fun h => ?_⟩
  · simp [difficultyTextOf, h2]
  · have hn2 : ¬ d ≤ 2 := by linarith
    simp [difficultyTextOf, hn2, h4]
  · subst h
    norm_num [difficultyTextOf]

/-- C7 counterexample: a candidate violating the rating condition whose
(userId, courseId) pair also already has a review is rejected with the
conflict error rather than a ValidationError naming the field: the
duplicate check of the handler runs before schema validation. -/
theorem validation_error_precedence_counterexample :
    ratingOk (6 : ℚ) = false ∧
    createReview (DB.mk [sampleReview] sampleDB.courses)
        { sampleInput with rating := 6 }
      = (DB.mk [sampleReview] sampleDB.courses, Except.error ApiError.conflict) := by
  refine ⟨by norm_num [ratingOk], ?_⟩
  have hany : hasReviewed (DB.mk [sampleReview] sampleDB.courses)
      (setDifficultyText { sampleInput with rating := 6 }) = true := by
    rw [hasReviewed, List.any_eq_true]
    refine ⟨sampleReview, by simp, ?_⟩
    simp [setDifficultyText_userId, setDifficultyText_courseId, sampleReview, sampleInput]
  simp [createReview, hany]

/-- C7 amended: a candidate Review is accepted for storage only if its
rating is a 0.5-step value in [1,5], its difficulty an integer in [1,5],
its content at least 10 characters and its tags drawn from the predefined
vocabulary; any candidate violating one of these is rejected with the store
unchanged and no Review stored — with a ValidationError naming each
offending field when the candidate is not also a duplicate (userId,
courseId) pair, the duplicate conflict taking precedence otherwise. -/
theorem review_validation_contract (db : DB) (input : ReviewInput) :
    (∀ db2 r, createReview db input = (db2, Except.ok r) →
      ratingOk input.rating = true ∧ difficultyOk input.difficulty = true ∧
      contentOk input.content = true ∧ tagsOk input.tags = true) ∧
    ((ratingOk input.rating = false ∨ difficultyOk input.difficulty = false ∨
      contentOk input.content = false ∨ tagsOk input.tags = false) →
      (createReview db input).1 = db ∧
      (∃ e, (createReview db input).2 = Except.error e) ∧
      (hasReviewed db (setDifficultyText input) = false →
        ∃ errs, (createReview db input).2
            = Except.error (ApiError.validation errs) ∧
          (ratingOk input.rating = false → "rating" ∈ errs) ∧
          (difficultyOk input.difficulty = false → "difficulty" ∈ errs) ∧
          (contentOk input.content = false → "content" ∈ errs) ∧
          (tagsOk input.tags = false → "tags" ∈ errs))) := by
  obtain ⟨hfr, hfd, hfc, hft⟩ := toReview_setDT_fields input
  constructor
  · intro db2 r hok
    unfold createReview at hok
    by_cases hdup : hasReviewed db (setDifficultyText input) = true
    · rw [if_pos hdup] at hok
      simp at hok
    · rw [if_neg hdup] at hok
      unfold saveReview at hok
      by_cases herr :
          (reviewErrors (toReview (setDifficultyText input))).isEmpty = true
      · have hnil := List.isEmpty_iff.mp herr
        have := reviewErrors_nil _ hnil
        rw [hfr, hfd, hfc, hft] at this
        exact this
      · rw [if_neg herr] at hok
        simp at hok
  · intro hviol
    by_cases hdup : hasReviewed db (setDifficultyText input) = true
    · refine ⟨by simp [createReview, hdup], ⟨ApiError.conflict, by simp [createReview, hdup]⟩, ?_⟩
      intro habs
      rw [habs] at hdup
      simp at hdup
    · obtain ⟨hm1, hm2, hm3, hm4⟩ := reviewErrors_mem (toReview (setDifficultyText input))
      rw [hfr] at hm1
      rw [hfd] at hm2
      rw [hfc] at hm3
      rw [hft] at hm4
      have hsome : ∃ f, f ∈ reviewErrors (toReview (setDifficultyText input)) := by
        rcases hviol with h | h | h | h
        · exact ⟨"rating", hm1 h⟩
        · exact ⟨"difficulty", hm2 h⟩
        · exact ⟨"content", hm3 h⟩
        · exact ⟨"tags", hm4 h⟩
      obtain ⟨f, hf⟩ := hsome
      have hne : reviewErrors (toReview (setDifficultyText input)) ≠ [] :=
        List.ne_nil_of_mem hf
      have hemp :
          (reviewErrors (toReview (setDifficultyText input))).isEmpty ≠ true :=
        fun h => hne (List.isEmpty_iff.mp h)
      have hcr : createReview db input
          = (db, Except.error (ApiError.validation
              (reviewErrors (toReview (setDifficultyText input))))) := by
        unfold createReview saveReview
        rw [if_neg hdup, if_neg hemp]
      refine ⟨by rw [hcr], ⟨_, by rw [hcr]⟩, fun _ => ?_⟩
      exact ⟨reviewErrors (toReview (setDifficultyText input)),
        by rw [hcr], hm1, hm2, hm3, hm4⟩

/-- Witness for C7 amended: a non-duplicate create with the out-of-range
rating 6 leaves the store unchanged and yields a ValidationError naming
the rating field. -/
theorem review_validation_contract_witness :
    ratingOk (6 : ℚ) = false ∧
    (createReview sampleDB { sampleInput with rating := 6 }).1 = sampleDB ∧
    (∃ e, (createReview sampleDB { sampleInput with rating := 6 }).2
        = Except.error e) ∧
    (∃ errs, (createReview sampleDB { sampleInput with rating := 6 }).2
        = Except.error (ApiError.validation errs) ∧ "rating" ∈ errs) := by
  have hv : ratingOk (6 : ℚ) = false := by norm_num [ratingOk]
  have hv2 : ratingOk ({ sampleInput with rating := 6 } : ReviewInput).rating
      = false := hv
  obtain ⟨ha, hb, hc⟩ :=
    (review_validation_contract sampleDB { sampleInput with rating := 6 }).2
      (Or.inl hv2)
  obtain ⟨errs, he, hr, _, _, _⟩ := hc rfl
  exact ⟨hv, ha, hb, errs, he, hr hv2⟩

/-- Witness for C6 at difficulty 3. -/
theorem difficultyText_table_witness :
    (3 : ℚ).den = 1 ∧ (1 : ℚ) ≤ 3 ∧ (3 : ℚ) ≤ 5 ∧
    difficultyTextOf 3 = "Moderate" :=
  ⟨rfl, by norm_num, by norm_num,
    (difficultyText_table 3 rfl (by norm_num) (by norm_num)).2.1
      (by norm_num) (by norm_num)⟩

/-- C8: a helpful-vote toggle with a malformed reviewId fails with a
ValidationError; a well-formed reviewId that matches no stored review fails
with a NotFoundError (given a well-formed session user id, as the auth
layer issues); in both failure cases the returned store is exactly the
store before the call. -/
theorem helpful_route_failure_modes (db : DB) (rid uid : String) :
    (isValidObjectId rid = false →
      helpfulRoute db rid uid
        = (db, Except.error (ApiError.validation ["id"]))) ∧
    (isValidObjectId rid = true → isValidObjectId uid = true →
      db.reviews.find? (fun r => r.id == rid) = none →
      helpfulRoute db rid uid = (db, Except.error ApiError.notFound)) := by
  constructor
  · intro hbad
    unfold helpfulRoute
    rw [if_neg (by simp [hbad])]
  · intro h1 h2 hfind
    unfold helpfulRoute
    rw [if_pos (by simp [h1, h2]), hfind]

/-- Witness for C8: the malformed id "xyz" gives the validation error and
an unknown well-formed 24-hex id gives not-found, both leaving the sample
store untouched. -/
theorem helpful_route_failure_modes_witness :
    isValidObjectId "xyz" = false ∧
    helpfulRoute sampleDB "xyz" "111111111111111111111111"
      = (sampleDB, Except.error (ApiError.validation ["id"])) ∧
    isValidObjectId "ffffffffffffffffffffffff" = true ∧
    helpfulRoute sampleDB "ffffffffffffffffffffffff" "111111111111111111111111"
      = (sampleDB, Except.error ApiError.notFound) :=
  ⟨rfl,
   (helpful_route_failure_modes sampleDB "xyz" "111111111111111111111111").1 rfl,
   rfl,
   (helpful_route_failure_modes sampleDB "ffffffffffffffffffffffff"
      "111111111111111111111111").2 rfl rfl rfl⟩

/-- C9 counterexample: the toggle is not one atomic unit against the store:
the membership read is separate from the write, and two interleaved
executions by the same user on a review with no helpful votes add the user
once but increment the counter twice — a state no serial execution of two
toggles produces (serially the count returns to 0) and one that breaks
helpfulCount = |helpfulUsers|. A single atomic set-mutation-plus-counter
operation could not reach this state. -/
theorem helpful_toggle_not_atomic_counterexample :
    sampleReview.helpfulCount = sampleReview.helpfulUsers.card ∧
    (runToggles Interleaving.readsABwriteAB "u" "u" sampleReview).helpfulCount = 2 ∧
    (runToggles Interleaving.readsABwriteAB "u" "u" sampleReview).helpfulUsers.card = 1 ∧
    (toggleHelpful "u" (toggleHelpful "u" sampleReview)).helpfulCount = 0 := by
  refine ⟨rfl, ?_, ?_, ?_⟩
  · simp [runToggles, applyHelpfulWrite, sampleReview]
  · simp [runToggles, applyHelpfulWrite, sampleReview]
  · rw [toggleHelpful_twice]
    rfl

/-- C9 amended: the store write of the toggle is a single atomic
set-membership-mutation-plus-counter-adjustment ($addToSet or $pull with
$inc), but the membership decision comes from a prior read in application
memory; still, for two concurrent toggles by distinct users every
interleaving of the reads and writes equals one of the two serial orders,
so distinct users never race and lose an update and
helpfulCount = |helpfulUsers| is preserved; only concurrent toggles by the
same user can drift. -/
theorem helpful_toggle_distinct_users_serialize (a b : String) (r : Review)
    (hab : a ≠ b) (hinv : r.helpfulCount = r.helpfulUsers.card) :
    ∀ i : Interleaving,
      (runToggles i a b r = toggleHelpful b (toggleHelpful a r) ∨
       runToggles i a b r = toggleHelpful a (toggleHelpful b r)) ∧
      (runToggles i a b r).helpfulCount
        = (runToggles i a b r).helpfulUsers.card := by
  have hAB := readsFirst_serializes a b r hab
  have hBA := readsFirst_serializes b a r (Ne.symm hab)
  intro i
  have hser : runToggles i a b r = toggleHelpful b (toggleHelpful a r) ∨
      runToggles i a b r = toggleHelpful a (toggleHelpful b r) := by
    cases i with
    | serialAB => exact Or.inl rfl
    | serialBA => exact Or.inr rfl
    | readsABwriteAB => exact Or.inl hAB
    | readsBAwriteAB => exact Or.inl hAB
    | readsABwriteBA => exact Or.inr hBA
    | readsBAwriteBA => exact Or.inr hBA
  refine ⟨hser, ?_⟩
  rcases hser with h | h <;> rw [h]
  · exact toggleHelpful_inv b _ (toggleHelpful_inv a r hinv)
  · exact toggleHelpful_inv a _ (toggleHelpful_inv b r hinv)

/-- Witness for C9 amended: two distinct users, the reads-first interleaved
schedule, and the sample review. -/
theorem helpful_toggle_distinct_users_serialize_witness :
    ("u1" : String) ≠ "u2" ∧
    sampleReview.helpfulCount = sampleReview.helpfulUsers.card ∧
    ((runToggles Interleaving.readsABwriteAB "u1" "u2" sampleReview
        = toggleHelpful "u2" (toggleHelpful "u1" sampleReview) ∨
      runToggles Interleaving.readsABwriteAB "u1" "u2" sampleReview
        = toggleHelpful "u1" (toggleHelpful "u2" sampleReview)) ∧
     (runToggles Interleaving.readsABwriteAB "u1" "u2" sampleReview).helpfulCount
        = (runToggles Interleaving.readsABwriteAB "u1" "u2"
            sampleReview).helpfulUsers.card) :=
  ⟨by simp, rfl,
    helpful_toggle_distinct_users_serialize "u1" "u2" sampleReview (by simp) rfl
      Interleaving.readsABwriteAB⟩

/-- C10: the aggregate recomputation is idempotent: running
updateCourseRatings for a course a second time immediately after a first
run leaves the store — in particular the course's averageRating,
averageDifficulty and reviewCount — exactly as the first run set them. -/
theorem recompute_idempotent (db : DB) (cid : String) :
    recompute (recompute db cid) cid = recompute db cid := by
  simp [recompute, setCourseAgg_idem]

end CourseRating
